import Mathlib

/-!
Verification of the research fetch orchestration engine of
`insight-atlas-scribe`: target classification, search-to-URL resolution,
retried search calls, rate-limited content fetching with caching, and the
iterative research loops, embedded shallowly from the TypeScript source.

Strings are modelled through their character lists; JavaScript string
operations (`startsWith`, `includes`, `split`, `indexOf`) are re-implemented
on those lists.  External collaborators (the SerpAPI search service, the
Firecrawl crawl service, the browser URL parser, `localStorage`) appear as
explicit oracle parameters; fallible calls are `Except`-valued.
-/

namespace InsightAtlas

/-- The space character, used when modelling JavaScript `split`
with separator `" "` and whitespace tests. -/
def spaceChar : Char := Char.ofNat 32

/-- `startsWithChars cs p` models JavaScript `String.prototype.startsWith`
on the underlying character lists. -/
def startsWithChars : List Char → List Char → Bool
  | _, [] => true
  | [], _ :: _ => false
  | c :: cs, d :: ds => c == d && startsWithChars cs ds

/-- JavaScript `s.startsWith(p)`. -/
def jsStartsWith (s p : String) : Bool :=
  startsWithChars s.data p.data

/-- `containsChars cs sub` holds when `sub` occurs as a contiguous
segment of `cs`; models JavaScript `String.prototype.includes`. -/
def containsChars : List Char → List Char → Bool
  | [], sub => startsWithChars [] sub
  | c :: cs, sub => startsWithChars (c :: cs) sub || containsChars cs sub

/-- JavaScript `s.includes(sub)`. -/
def jsIncludes (s sub : String) : Bool :=
  containsChars s.data sub.data

/-- Characters of `cs` strictly before the first occurrence of the
separator list `sep`; models taking element `[0]`..the next separator of a
JavaScript `split` on a multi-character separator. -/
def upToSub (sep : List Char) : List Char → List Char
  | [] => []
  | c :: cs => if startsWithChars (c :: cs) sep then [] else c :: upToSub sep cs

/-- Characters of `cs` strictly before the first occurrence of `t`;
models `s.split(t)[0]` for a single-character separator. -/
def upToChar (t : Char) : List Char → List Char
  | [] => []
  | c :: cs => if c == t then [] else c :: upToChar t cs

/-- JavaScript `Array.prototype.includes` on a string array. -/
def listHas : List String → String → Bool
  | [], _ => false
  | y :: ys, x => x == y || listHas ys x

/-- For a query beginning with `site:`, the literal domain substring,
exactly as the source computes it: `query.split('site:')[1].split(' ')[0]`. -/
def siteDomain (q : String) : String :=
  String.mk (upToChar spaceChar (upToSub "site:".data (q.data.drop 5)))

/-- `jsIndexOf l x`: index of the first occurrence of `x` in `l`
(`l.length` when absent, which never arises at the call sites modelled). -/
def jsIndexOf : List String → String → Nat
  | [], _ => 0
  | y :: ys, x => if y == x then 0 else jsIndexOf ys x + 1

/-- `s` contains a whitespace (space) character. -/
def hasWhitespace (s : String) : Bool :=
  s.data.any (fun c => c == spaceChar)

/-! ### TargetClassifier — `SerpApiService.looksLikeDomain` and
`WebScraperService.prioritizeTargets` (src/src/utils/SerpApiService.ts,
src/src/services/webScraperService.ts) -/

/-- `c` lies in the JavaScript character class `[a-zA-Z]`. -/
def isAlphaChar (c : Char) : Bool :=
  (Char.ofNat 97 ≤ c && c ≤ Char.ofNat 122) || (Char.ofNat 65 ≤ c && c ≤ Char.ofNat 90)

/-- `c` lies in the character class `[a-zA-Z0-9]`. -/
def isAlnumChar (c : Char) : Bool :=
  isAlphaChar c || (Char.ofNat 48 ≤ c && c ≤ Char.ofNat 57)

/-- `c` lies in the character class `[a-zA-Z0-9-]`. -/
def isMidChar (c : Char) : Bool :=
  isAlnumChar c || c == Char.ofNat 45

/-- The tail of the domain regex after the greedy middle run: one
`[a-zA-Z0-9]`, a literal dot, then at least two `[a-zA-Z]`. -/
def domainRegexTail (cs : List Char) : Bool :=
  match cs with
  | c :: d :: a :: b :: _ => isAlnumChar c && d == Char.ofNat 46 && isAlphaChar a && isAlphaChar b
  | _ => false

/-- Backtracking search for the middle run `[a-zA-Z0-9-]{1,61}` of the
domain regex: consume between 1 and `budget` middle characters, then try
the tail at each split point. -/
def domainRegexMid : Nat → List Char → Bool
  | 0, _ => false
  | _ + 1, [] => false
  | budget + 1, c :: cs =>
    isMidChar c && (domainRegexTail cs || domainRegexMid budget cs)

/-- JavaScript `/^[a-zA-Z0-9][a-zA-Z0-9-]{1,61}[a-zA-Z0-9]\.[a-zA-Z]{2,}/.test s`. -/
def domainRegexTest (s : String) : Bool :=
  match s.data with
  | [] => false
  | c :: cs => isAlnumChar c && domainRegexMid 61 cs

/-- `SerpApiService.looksLikeDomain`: the anchored domain regex, or any of
the recognized TLD substrings, anywhere in the input.  The source has no
whitespace test. -/
def looksLikeDomain (input : String) : Bool :=
  if input.data.isEmpty then false
  else
    domainRegexTest input || jsIncludes input ".com" || jsIncludes input ".org" ||
    jsIncludes input ".net" || jsIncludes input ".edu" || jsIncludes input ".gov" ||
    jsIncludes input ".se" || jsIncludes input ".no"

/-- `SerpApiService.isDirectUrl`. -/
def isDirectUrl (input : String) : Bool :=
  jsStartsWith input "http" || looksLikeDomain input

/-- `SerpApiService.ensureHttps`. -/
def ensureHttps (url : String) : String :=
  if jsStartsWith url "http" then url else "https://" ++ url

/-- The three groups of `WebScraperService.prioritizeTargets`. -/
inductive TargetBucket where
  | direct
  | siteQuery
  | regular
  deriving DecidableEq, Repr

/-- The branch of `prioritizeTargets` a target falls into: starts with
`http` or contains `.com`/`.org`/`.net` → the direct-URL group; else a
`site:` query; else a regular query. -/
def targetBucket (target : String) : TargetBucket :=
  if jsStartsWith target "http" || jsIncludes target ".com" ||
      jsIncludes target ".org" || jsIncludes target ".net" then
    .direct
  else if jsStartsWith target "site:" then
    .siteQuery
  else
    .regular

/-- `WebScraperService.prioritizeTargets`: stable partition of the targets
into direct URLs, then `site:` queries, then regular queries. -/
def prioritizeTargets (targets : List String) : List String :=
  targets.filter (fun t => targetBucket t = .direct) ++
  targets.filter (fun t => targetBucket t = .siteQuery) ++
  targets.filter (fun t => targetBucket t = .regular)

/-! ### SearchResolver — `SerpApiService.getTopSearchUrls`
(src/src/utils/SerpApiService.ts) -/

/-- One organic search result of the SerpAPI response; `link` is `none`
when the field is absent or empty (JavaScript-falsy). -/
structure OrganicResult where
  link : Option String
  deriving DecidableEq, Repr

/-- The fields of a successful SerpAPI response body that
`getTopSearchUrls` reads.  `none` models an absent (or non-array) field. -/
structure SerpData where
  knowledgeGraphWebsite : Option String
  organicResults : Option (List OrganicResult)
  inlinePeopleAlsoSearchFor : Option (List OrganicResult)
  eventsResults : Option (List OrganicResult)
  deriving Repr

/-- A `link` passes the first organic pass: present, non-empty, on none of
the excluded domains (`google.com`, `gstatic.com`, `youtube.com`). -/
def firstPassOk (l : String) : Bool :=
  !jsIncludes l "google.com" && !jsIncludes l "gstatic.com" && !jsIncludes l "youtube.com"

/-- First organic pass: append each direct, non-excluded link not already
collected. -/
def firstPass (urls : List String) : List OrganicResult → List String
  | [] => urls
  | r :: rs =>
    match r.link with
    | none => firstPass urls rs
    | some l =>
      if l ≠ "" && firstPassOk l && !listHas urls l then
        firstPass (urls ++ [l]) rs
      else
        firstPass urls rs

/-- Second organic pass (run only when fewer than `limit` links were
collected): append every remaining link that is not on `google.com`. -/
def secondPass (urls : List String) : List OrganicResult → List String
  | [] => urls
  | r :: rs =>
    match r.link with
    | none => secondPass urls rs
    | some l =>
      if l ≠ "" && !jsIncludes l "google.com" && !listHas urls l then
        secondPass (urls ++ [l]) rs
      else
        secondPass urls rs

/-- Pass over `inline_people_also_search_for`: append each present link not
already collected (no domain exclusion). -/
def inlinePass (urls : List String) : List OrganicResult → List String
  | [] => urls
  | r :: rs =>
    match r.link with
    | none => inlinePass urls rs
    | some l =>
      if l ≠ "" && !listHas urls l then inlinePass (urls ++ [l]) rs
      else inlinePass urls rs

/-- URL extraction from a successful SerpAPI response, before the final
`slice(0, limit)`: knowledge-graph website first, then the two organic
passes, then the inline-searches pass, then (only if still empty) the
events results. -/
def extractUrls (limit : Nat) (d : SerpData) : List String :=
  let urls : List String :=
    match d.knowledgeGraphWebsite with
    | some w => if w ≠ "" then [w] else []
    | none => []
  let urls :=
    match d.organicResults with
    | some rs =>
      let u1 := firstPass urls rs
      if u1.length < limit then secondPass u1 rs else u1
    | none => urls
  let urls :=
    match d.inlinePeopleAlsoSearchFor with
    | some rs => inlinePass urls rs
    | none => urls
  if urls.isEmpty then
    match d.eventsResults with
    | some rs => inlinePass urls rs
    | none => urls
  else urls

/-- The value a successful attempt of `getTopSearchUrls` returns:
`urls.slice(0, limit)`. -/
def serpExtract (limit : Nat) (d : SerpData) : List String :=
  (extractUrls limit d).take limit

/-! #### RetryPolicy — the retry loop of `getTopSearchUrls` -/

/-- Outcome of one attempt of the SerpAPI request: a parsed response body,
or a thrown error, which is an `AbortError` exactly when `isAbort` is true. -/
inductive AttemptOutcome where
  | ok (data : SerpData)
  | err (isAbort : Bool)

/-- Trace of the retry loop: the attempt indices performed in order, the
backoff sleeps performed in order, and the response of the successful
attempt, if any. -/
structure RetryTrace where
  attempts : List Nat
  sleeps : List Nat
  result : Option SerpData

/-- `SerpApiService.MAX_RETRIES`. -/
def serpMaxRetries : Nat := 2

/-- `SerpApiService.RETRY_DELAY` (milliseconds). -/
def serpRetryDelay : Nat := 2000

/-- The retry loop of `getTopSearchUrls`, on outcome oracle `o`: attempt
`k`; on success stop; on an `AbortError` stop without retrying; on another
error with retries remaining sleep `base * 2 ^ k` and move to attempt
`k + 1`, otherwise stop.  `fuel` bounds the recursion and is chosen large
enough (`maxR + 1` from attempt 0) never to be exhausted. -/
def retryRun (o : Nat → AttemptOutcome) (maxR base : Nat) : Nat → Nat → RetryTrace
  | 0, _ => ⟨[], [], none⟩
  | fuel + 1, k =>
    match o k with
    | .ok d => ⟨[k], [], some d⟩
    | .err true => ⟨[k], [], none⟩
    | .err false =>
      if k < maxR then
        let t := retryRun o maxR base fuel (k + 1)
        ⟨k :: t.attempts, base * 2 ^ k :: t.sleeps, t.result⟩
      else ⟨[k], [], none⟩

/-- The whole retry loop, started at attempt 0 (`retries = 0`). -/
def retryPolicy (o : Nat → AttemptOutcome) (maxR base : Nat) : RetryTrace :=
  retryRun o maxR base (maxR + 1) 0

/-- `SerpApiService.getTopSearchUrls`, with the network modelled by the
attempt oracle `o`: direct URLs and domain-like queries return immediately
without any search call; otherwise the retried search either succeeds and
yields `serpExtract`, or is exhausted and falls back to the literal domain
for `site:` queries, to the query itself for domain-like queries, to the
hardcoded venue page for queries mentioning it, and to `[]` otherwise. -/
def getTopSearchUrls (query : String) (limit : Nat) (o : Nat → AttemptOutcome) :
    List String :=
  if isDirectUrl query then [ensureHttps query]
  else
    match (retryPolicy o serpMaxRetries serpRetryDelay).result with
    | some d => serpExtract limit d
    | none =>
      if jsStartsWith query "site:" then
        ["https://" ++ siteDomain query]
      else if looksLikeDomain query then
        [ensureHttps query]
      else if jsIncludes query.toLower "gronalund" || jsIncludes query.toLower "grönalund" then
        ["https://www.gronalund.com/en/"]
      else
        []

/-! ### RateLimiter and ContentFetcher cache — `FirecrawlService`
(src/src/utils/FirecrawlService.ts) -/

/-- `FirecrawlService.RATE_LIMIT_WINDOW` (milliseconds). -/
def RATE_LIMIT_WINDOW : Nat := 60000

/-- `FirecrawlService.MAX_CONCURRENT_REQUESTS`: the call-count cap of the
sliding window. -/
def MAX_CONCURRENT_REQUESTS : Nat := 3

/-- `FirecrawlService.enforceRateLimit` at time `now`: purge timestamps at
least `windowMs` old from the stored list, then admit iff fewer than
`maxCalls` remain.  Returns the admission decision and the purged list that
the source assigns back to `recentRequests`. -/
def enforceRateLimit (windowMs maxCalls now : Nat) (ts : List Nat) : Bool × List Nat :=
  let ts' := ts.filter (fun t => now - t < windowMs)
  (decide (ts'.length < maxCalls), ts')

/-- An admission followed, on success, by recording `now`, exactly as
`crawlWebsite` pushes onto `recentRequests` after `enforceRateLimit`
passes. -/
def tryAcquire (windowMs maxCalls now : Nat) (ts : List Nat) : Bool × List Nat :=
  let r := enforceRateLimit windowMs maxCalls now ts
  if r.1 then (true, r.2 ++ [now]) else (false, r.2)

/-- Folding a sequence of admission attempts over the limiter state,
collecting the decisions. -/
def runAcquires (windowMs maxCalls : Nat) : List Nat → List Nat → List Bool × List Nat
  | [], ts => ([], ts)
  | now :: nows, ts =>
    let r := tryAcquire windowMs maxCalls now ts
    let rest := runAcquires windowMs maxCalls nows r.2
    (r.1 :: rest.1, rest.2)

/-- A response of the crawl collaborator as `FirecrawlService` types it:
`{success: true, content, metadata}` or `{success: false, error}`. -/
inductive CrawlResponse where
  | ok (content : String) (metadata : List (String × String))
  | fail (error : String)
  deriving DecidableEq, Repr

/-- What `crawlWebsite` returns to its caller. -/
inductive CrawlResult where
  | success (content : String) (metadata : List (String × String))
  | failure (error : String)
  deriving DecidableEq, Repr

/-- `FirecrawlService.processResponse`. -/
def processResponse : CrawlResponse → CrawlResult
  | .ok c m => .success c m
  | .fail e => .failure (if e = "" then "Failed to crawl website" else e)

/-- The mutable static state of `FirecrawlService`: the URL-keyed response
cache and the rate-window timestamps. -/
structure FCState where
  requestCache : List (String × CrawlResponse)
  recentRequests : List Nat
  deriving Repr

/-- JavaScript `Map.prototype.set`: replace the entry when the key is
present, append otherwise. -/
def mapSet (l : List (String × CrawlResponse)) (k : String) (v : CrawlResponse) :
    List (String × CrawlResponse) :=
  if (l.lookup k).isSome then
    l.map (fun p => if p.1 == k then (k, v) else p)
  else
    l ++ [(k, v)]

/-- `FirecrawlService.crawlWebsite` with the crawl collaborator modelled by
`collab` (`.error` models a thrown exception) and URL normalization
(`formatUrl`, which wraps the browser URL parser) by `fmt`.  Returns the
caller-visible result, the updated static state, and whether a network
call to the collaborator was initiated. -/
def crawlWebsite (fmt : String → String) (apiKey : Option String)
    (collab : Except String CrawlResponse) (now : Nat) (st : FCState)
    (url : String) : CrawlResult × FCState × Bool :=
  match apiKey with
  | none => (.failure "API key not found", st, false)
  | some _ =>
    let targetUrl := fmt url
    match st.requestCache.lookup targetUrl with
    | some cached => (processResponse cached, st, false)
    | none =>
      let r := enforceRateLimit RATE_LIMIT_WINDOW MAX_CONCURRENT_REQUESTS now st.recentRequests
      if r.1 then
        let st1 : FCState := ⟨st.requestCache, r.2 ++ [now]⟩
        match collab with
        | .error e => (.failure e, st1, true)
        | .ok resp =>
          (processResponse resp, ⟨mapSet st1.requestCache targetUrl resp, st1.recentRequests⟩, true)
      else
        (.failure "Rate limit reached. Please wait before trying again.",
          ⟨st.requestCache, r.2⟩, false)

/-! ### ResearchOrchestrator fetch round — `WebScraperService.scrapeSearchTargets`
(src/src/services/webScraperService.ts)

The run is instrumented with a logical clock that ticks at every `await`
(search call, batch `Promise.all`, inter-batch and inter-target delay);
the cancellation flag, set concurrently by `cancelResearch`, is modelled
as a function of that clock, since in the single-threaded event loop the
flag can change only across `await` points.  Every unit of work the loop
starts is recorded as an event carrying the clock and the size of the
result accumulator at its initiation. -/

/-- `ScrapingResult` of src/src/services/webScraperService.ts. -/
structure ScrapingResult where
  url : String
  content : String
  metadata : List (String × String)
  searchQuery : String
  deriving DecidableEq, Repr

/-- `MAX_RESULTS_TOTAL`: the global result cap of a round. -/
def MAX_RESULTS_TOTAL : Nat := 15

/-- `MAX_URLS_PER_TARGET`. -/
def MAX_URLS_PER_TARGET : Nat := 5

/-- `INDUSTRY_SPECIFIC_SOURCES[0]`, the fallback source pushed when the
search collaborator yields nothing or fails for a regular query. -/
def industrySource0 : String := "https://www.entrust.com/about/newsroom/events/"

/-- The response shape `crawlWebsite` hands back to the scraper:
`{success, data?: {content, metadata?}, error?}`. -/
structure FetchData where
  content : String
  metadata : Option (List (String × String))
  deriving Repr

/-- See `FetchData`. -/
structure FetchResp where
  success : Bool
  data : Option FetchData
  deriving Repr

/-- A unit of work started by the round loop. -/
inductive EventKind where
  | targetStart (target : String)
  | resolveCall (query : String)
  | fetchCall (url : String)
  deriving DecidableEq, Repr

/-- An event record: the logical clock and the accumulator size at the
moment the unit of work was initiated. -/
structure REvent where
  clock : Nat
  resultsLen : Nat
  kind : EventKind
  deriving DecidableEq, Repr

/-- The state threaded through the round: the logical clock, the result
accumulator (`results` in the source), and the event log. -/
structure SState where
  clock : Nat
  results : List ScrapingResult
  events : List REvent
  deriving Repr

/-- The round's external environment: the cancellation flag as observed at
each clock value, the two `localStorage` key lookups (which may throw),
the search-resolution and content-extraction collaborators (indexed by the
clock of the call), and the browser URL-validity predicate. -/
structure ScrapeEnv where
  canceled : Nat → Bool
  serpKeyE : Except String (Option String)
  fcKeyE : Except String (Option String)
  resolve : Nat → String → Except String (List String)
  fetch : Nat → String → Except String FetchResp
  isValid : String → Bool

/-- Deduplication by insertion order, as `[...new Set(urls)]`. -/
def dedupFirst (l : List String) : List String :=
  go l []
where
  /-- Keep each string's first occurrence, tracking what was seen. -/
  go : List String → List String → List String
  | [], _ => []
  | x :: xs, seen => if listHas seen x then go xs seen else x :: go xs (x :: seen)

/-- Consecutive batches of `BATCH_SIZE = 3`. -/
def chunk3 : List α → List (List α)
  | [] => []
  | [a] => [[a]]
  | [a, b] => [[a, b]]
  | a :: b :: c :: rest => [a, b, c] :: chunk3 rest

/-- One URL of a batch: call the crawl collaborator; a thrown error or an
unsuccessful or data-less response yields `null`; empty extracted content
is rejected; otherwise a `ScrapingResult` tagged with the originating
target. -/
def fetchOne (env : ScrapeEnv) (clock : Nat) (target url : String) :
    Option ScrapingResult :=
  match env.fetch clock url with
  | .error _ => none
  | .ok r =>
    if r.success then
      match r.data with
      | some d =>
        if d.content ≠ "" then some ⟨url, d.content, d.metadata.getD [], target⟩
        else none
      | none => none
    else none

/-- The batch loop over the chunked URL list of one target: at each batch
boundary, stop if the flag is set or the accumulator has reached
`MAX_RESULTS_TOTAL`; otherwise initiate all fetches of the batch, await
them (one clock tick), append the successes in batch order, and, per the
source, sleep (another tick) before a further batch — also when the batch
produced nothing — and stop once the cap is reached. -/
def batchLoop (env : ScrapeEnv) (target : String) :
    List (List String) → SState → SState
  | [], st => st
  | c :: rest, st =>
    if env.canceled st.clock || st.results.length ≥ MAX_RESULTS_TOTAL then st
    else
      let ev := c.map (fun u => REvent.mk st.clock st.results.length (.fetchCall u))
      let fetched := c.filterMap (fetchOne env st.clock target)
      let st1 : SState := ⟨st.clock + 1, st.results ++ fetched, st.events ++ ev⟩
      if fetched.length = 0 ∧ rest ≠ [] then
        batchLoop env target rest ⟨st1.clock + 1, st1.results, st1.events⟩
      else if st1.results.length ≥ MAX_RESULTS_TOTAL then st1
      else if rest ≠ [] then
        batchLoop env target rest ⟨st1.clock + 1, st1.results, st1.events⟩
      else st1

/-- The per-target URL preparation of the round loop (`CASE 1`–`3` of the
source): direct URLs pass through without a network call; `site:` queries
and regular queries go to the search collaborator when a SerpAPI key is
present (one recorded call and one clock tick), with the source's
fallbacks on empty or failed resolution. -/
def resolveUrlsFor (env : ScrapeEnv) (serpKey : Option String)
    (ctx : Option String) (target : String) (st : SState) :
    List String × SState :=
  if jsStartsWith target "http" || env.isValid ("https://" ++ target) then
    ((if jsStartsWith target "http" then [target] else ["https://" ++ target]), st)
  else if jsStartsWith target "site:" then
    match serpKey with
    | some _ =>
      let st' : SState := ⟨st.clock + 1, st.results,
        st.events ++ [⟨st.clock, st.results.length, .resolveCall target⟩]⟩
      match env.resolve st.clock target with
      | .ok found =>
        ((if found ≠ [] then found else ["https://" ++ siteDomain target]), st')
      | .error _ => ([], st')
    | none => (["https://" ++ siteDomain target], st)
  else
    match serpKey with
    | some _ =>
      let q :=
        match ctx with
        | some c => if ¬ (jsIncludes target c = true) then target ++ " " ++ c else target
        | none => target
      let st' : SState := ⟨st.clock + 1, st.results,
        st.events ++ [⟨st.clock, st.results.length, .resolveCall q⟩]⟩
      match env.resolve st.clock q with
      | .ok found => ((if found ≠ [] then found else [industrySource0]), st')
      | .error _ => ([industrySource0], st')
    | none => ([industrySource0], st)

/-- Recording the start of a target's processing in the event log. -/
def pushTargetStart (t : String) (st : SState) : SState :=
  ⟨st.clock, st.results, st.events ++ [⟨st.clock, st.results.length, .targetStart t⟩]⟩

/-- The URL list a target ends up with after resolution:
`[...new Set(urlsToScrape)]`, filtered for validity and against Google
search-result pages, capped at `MAX_URLS_PER_TARGET`. -/
def preparedUrls (env : ScrapeEnv) (serpKey ctx : Option String) (t : String)
    (st : SState) : List String :=
  ((dedupFirst (resolveUrlsFor env serpKey ctx t (pushTargetStart t st)).1).filter
    (fun u => env.isValid u && !jsStartsWith u "https://www.google.com/search")).take
    MAX_URLS_PER_TARGET

/-- Processing of one target of the round (after the boundary check):
record the start, prepare the URLs; when none survive the filter the
target is skipped (`continue` — no inter-target delay); otherwise run the
batch loop and, unless this target sits last in the original target list
(`searchTargets.indexOf(target) < searchTargets.length - 1`), sleep once
before the next target. -/
def targetStep (env : ScrapeEnv) (serpKey ctx : Option String)
    (origTargets : List String) (t : String) (st : SState) : SState :=
  if preparedUrls env serpKey ctx t st = [] then
    (resolveUrlsFor env serpKey ctx t (pushTargetStart t st)).2
  else if jsIndexOf origTargets t < origTargets.length - 1 then
    ⟨(batchLoop env t (chunk3 (preparedUrls env serpKey ctx t st))
        (resolveUrlsFor env serpKey ctx t (pushTargetStart t st)).2).clock + 1,
      (batchLoop env t (chunk3 (preparedUrls env serpKey ctx t st))
        (resolveUrlsFor env serpKey ctx t (pushTargetStart t st)).2).results,
      (batchLoop env t (chunk3 (preparedUrls env serpKey ctx t st))
        (resolveUrlsFor env serpKey ctx t (pushTargetStart t st)).2).events⟩
  else
    batchLoop env t (chunk3 (preparedUrls env serpKey ctx t st))
      (resolveUrlsFor env serpKey ctx t (pushTargetStart t st)).2

/-- The target loop of `scrapeSearchTargets` over the prioritized targets:
at each target boundary, stop if the flag is set or the cap is reached;
otherwise process the target and continue. -/
def targetLoop (env : ScrapeEnv) (serpKey : Option String) (ctx : Option String)
    (origTargets : List String) : List String → SState → SState
  | [], st => st
  | t :: ts, st =>
    if env.canceled st.clock || st.results.length ≥ MAX_RESULTS_TOTAL then st
    else
      targetLoop env serpKey ctx origTargets ts
        (targetStep env serpKey ctx origTargets t st)

/-- The body of `scrapeSearchTargets` inside its outermost `try`: read the
two API keys (the unguarded `localStorage` accesses, which may throw — the
error value carries the accumulator at the throw, still empty there),
return `[]` when the Firecrawl key is missing, and otherwise run the
target loop over the prioritized targets from the empty state. -/
def scrapeBody (env : ScrapeEnv) (targets : List String) (ctx : Option String) :
    Except (String × List ScrapingResult) SState :=
  match env.serpKeyE with
  | .error e => .error (e, [])
  | .ok serpKey =>
    match env.fcKeyE with
    | .error e => .error (e, [])
    | .ok none => .ok ⟨0, [], []⟩
    | .ok (some _) =>
      .ok (targetLoop env serpKey ctx targets (prioritizeTargets targets) ⟨0, [], []⟩)

/-- `WebScraperService.scrapeSearchTargets`: the body wrapped in the
source's outermost `try`/`catch`, whose handler returns the results
accumulated so far instead of rethrowing. -/
def scrapeSearchTargets (env : ScrapeEnv) (targets : List String)
    (ctx : Option String) : List ScrapingResult :=
  match scrapeBody env targets ctx with
  | .ok st => st.results
  | .error (_, acc) => acc

/-! ### ResearchOrchestrator iteration state machine —
`conductIterativeResearch` (src/unnamed/part_023) and `continueResearch`
(src/src/pages/ResearchPage.tsx) -/

/-- The analysis the refinement collaborator returns for one round:
`{analysis, confidence, nextQueries, isDone}`. -/
structure AnalysisR where
  analysis : String
  confidence : Nat
  nextQueries : List String
  isDone : Bool

/-- One entry of the iteration history
(`ResearchIteration` of src/unnamed/part_023). -/
structure IterRec where
  id : Nat
  searchQueries : List String
  results : List ScrapingResult
  analysis : String
  nextSteps : List String

/-- How the iteration loop ended: the refinement collaborator declared the
research done, the iteration cap was hit, or a round produced no results. -/
inductive SessionEnd where
  | done
  | exhausted
  | noResults
  deriving DecidableEq, Repr

/-- Result of the iteration loop: the iteration history, the number of
rounds whose body was entered, and the terminal state. -/
structure SessionResult where
  history : List IterRec
  rounds : Nat
  termState : SessionEnd

/-- The `while (!isDone && iterationCount < maxIterations)` loop of
`conductIterativeResearch`, with the scraper and the refinement
collaborator as oracles indexed by the iteration counter.  One body entry
is one round: scrape with the current queries (break with `noResults` when
nothing comes back), analyze, append the iteration record, and then either
stop — `done` when the analysis says so, `exhausted` when the counter has
reached `maxIterations - 1` — or continue with the improved queries.
`fuel` only bounds the recursion and is chosen so it never runs out before
the loop condition fails. -/
def researchGo (maxIterations : Nat)
    (scrape : Nat → List String → List ScrapingResult)
    (analyze : Nat → List ScrapingResult → AnalysisR) :
    Nat → Nat → List String → List IterRec → SessionResult
  | 0, _, _, iters => ⟨iters, 0, .exhausted⟩
  | fuel + 1, count, qs, iters =>
    if count < maxIterations then
      let results := scrape count qs
      if results.length = 0 then ⟨iters, 1, .noResults⟩
      else
        let a := analyze count results
        let iters' := iters ++ [⟨count + 1, qs, results, a.analysis, a.nextQueries⟩]
        if a.isDone then ⟨iters', 1, .done⟩
        else if count ≥ maxIterations - 1 then ⟨iters', 1, .exhausted⟩
        else
          let r := researchGo maxIterations scrape analyze fuel (count + 1) a.nextQueries iters'
          ⟨r.history, r.rounds + 1, r.termState⟩
    else ⟨iters, 0, .exhausted⟩

/-- `conductIterativeResearch`: the loop started with `iterationCount = 0`
and an empty history. -/
def conductIterativeResearch (maxIterations : Nat)
    (scrape : Nat → List String → List ScrapingResult)
    (analyze : Nat → List ScrapingResult → AnalysisR)
    (initialQueries : List String) : SessionResult :=
  researchGo maxIterations scrape analyze (maxIterations + 1) 0 initialQueries []

/-- `MAX_RESEARCH_ITERATIONS` of src/src/pages/ResearchPage.tsx. -/
def MAX_RESEARCH_ITERATIONS : Nat := 2

/-- What `continueResearch` does. -/
inductive ContinueAction where
  | execute
  | limitReached
  deriving DecidableEq, Repr

/-- `continueResearch` of src/src/pages/ResearchPage.tsx: start another
round only while the iteration counter is below
`MAX_RESEARCH_ITERATIONS`. -/
def continueResearch (currentIteration : Nat) : ContinueAction :=
  if currentIteration < MAX_RESEARCH_ITERATIONS then .execute else .limitReached

/-! ## Theorems -/

/-! ### C6 — whitespace vs TLD substring in target classification -/

/-- C6, counterexample: the string `"acme.com events"` contains whitespace
and the recognized TLD substring `.com`, yet `looksLikeDomain` accepts it
and `prioritizeTargets` places it in the direct-URL group rather than
treating it as a free-text query — the claimed no-whitespace tie-break
does not exist in the code. -/
theorem classify_whitespace_counterexample :
    hasWhitespace "acme.com events" = true ∧
    jsIncludes "acme.com events" ".com" = true ∧
    looksLikeDomain "acme.com events" = true ∧
    targetBucket "acme.com events" = TargetBucket.direct ∧
    targetBucket "acme.com events" ≠ TargetBucket.regular := by
  refine ⟨by decide, by decide, by decide, by decide, by decide⟩

/-- C6, amended: any string containing one of the TLD substrings
`.com`/`.org`/`.net` satisfies `looksLikeDomain` and is grouped with the
direct URLs by `prioritizeTargets`, whether or not it contains whitespace;
the no-whitespace rule is not a tie-break anywhere in the classification. -/
theorem classify_tld_overrides_whitespace (s : String)
    (h : jsIncludes s ".com" = true ∨ jsIncludes s ".org" = true ∨
      jsIncludes s ".net" = true) :
    looksLikeDomain s = true ∧ targetBucket s = TargetBucket.direct := by
  have hne : s.data.isEmpty = false := by
    cases hd : s.data with
    | nil =>
      exfalso
      rcases h with h | h | h <;>
        (rw [jsIncludes, hd] at h; simp [containsChars, startsWithChars] at h)
    | cons a l => rfl
  constructor
  · rw [looksLikeDomain, hne]
    rcases h with h | h | h <;> simp [h]
  · rw [targetBucket]
    rcases h with h | h | h <;> simp [h]

/-- C6, witness for the amended theorem at the concrete counterexample
input. -/
theorem classify_tld_overrides_whitespace_witness :
    looksLikeDomain "acme.com events" = true ∧
    targetBucket "acme.com events" = TargetBucket.direct :=
  classify_tld_overrides_whitespace "acme.com events" (Or.inl (by decide))

/-! ### C3 — sliding-window rate limiter -/

/-- `k` admissions at one instant `t0`, from a window already holding `j`
copies of `t0`, all succeed while `j + k` stays within the cap, and leave
exactly `j + k` in-window timestamps. -/
theorem runAcquires_replicate (w maxC t0 : Nat) (hw : 0 < w) :
    ∀ k j, j + k ≤ maxC →
      runAcquires w maxC (List.replicate k t0) (List.replicate j t0) =
        (List.replicate k true, List.replicate (j + k) t0) := by
  intro k
  induction k with
  | zero => intro j _; simp [runAcquires]
  | succ k ih =>
    intro j hjk
    have hfilter : (List.replicate j t0).filter (fun t => decide (t0 - t < w)) =
        List.replicate j t0 := by
      apply List.filter_eq_self.mpr
      intro a ha
      rw [List.eq_of_mem_replicate ha]
      simpa using hw
    have hlt : j < maxC := by omega
    rw [List.replicate_succ, runAcquires]
    simp only [tryAcquire, enforceRateLimit, hfilter, List.length_replicate,
      decide_eq_true_eq, hlt, decide_True, if_true]
    rw [← List.replicate_succ' j t0]
    rw [ih (j + 1) (by omega)]
    have : j + 1 + k = j + (k + 1) := by omega
    rw [this, List.replicate_succ]

/-- Once the window holds `maxC` timestamps still inside the window at the
check instant, the next admission check is denied. -/
theorem tryAcquire_denied_when_full (w maxC u t0 : Nat) (hin : u - t0 < w) :
    (tryAcquire w maxC u (List.replicate maxC t0)).1 = false := by
  have hfilter : (List.replicate maxC t0).filter (fun t => decide (u - t < w)) =
      List.replicate maxC t0 := by
    apply List.filter_eq_self.mpr
    intro a ha
    rw [List.eq_of_mem_replicate ha]
    simpa using hin
  simp [tryAcquire, enforceRateLimit, hfilter]

/-- Once the whole window duration has elapsed since the stored
admissions, the next check purges them all and is granted again. -/
theorem tryAcquire_granted_after_window (w maxC v t0 : Nat) (hm : 0 < maxC)
    (hv : t0 + w ≤ v) :
    (tryAcquire w maxC v (List.replicate maxC t0)).1 = true := by
  have hfilter : (List.replicate maxC t0).filter (fun t => decide (v - t < w)) = [] := by
    apply List.filter_eq_nil_iff.mpr
    intro a ha
    rw [List.eq_of_mem_replicate ha]
    simp only [decide_eq_true_eq]
    omega
  simp [tryAcquire, enforceRateLimit, hfilter, hm]

/-- Every timestamp stored after an admission check lies strictly inside
the window as measured at that check. -/
theorem tryAcquire_purges (w maxC : Nat) (hw : 0 < w) :
    ∀ ts now t, t ∈ (tryAcquire w maxC now ts).2 → now - t < w := by
  intro ts now t ht
  rw [tryAcquire] at ht
  by_cases hc : (enforceRateLimit w maxC now ts).1 = true
  · rw [if_pos hc] at ht
    simp only [enforceRateLimit, List.mem_append, List.mem_singleton] at ht
    rcases ht with ht | ht
    · have := List.of_mem_filter ht
      simpa using this
    · omega
  · rw [if_neg hc] at ht
    simp only [enforceRateLimit] at ht
    have := List.of_mem_filter ht
    simpa using this

/-- Starting from an in-cap window, any sequence of admission checks keeps
the stored timestamp count at or below the cap. -/
theorem runAcquires_length_le (w maxC : Nat) :
    ∀ nows ts, ts.length ≤ maxC → ((runAcquires w maxC nows ts).2).length ≤ maxC := by
  intro nows
  induction nows with
  | nil => intro ts h; simpa [runAcquires] using h
  | cons now nows ih =>
    intro ts h
    rw [runAcquires]
    apply ih
    have hfl : (ts.filter (fun t => decide (now - t < w))).length ≤ maxC :=
      le_trans (List.length_filter_le _ ts) h
    rw [tryAcquire]
    by_cases hc : (enforceRateLimit w maxC now ts).1 = true
    · rw [if_pos hc]
      simp only [enforceRateLimit, decide_eq_true_eq] at hc ⊢
      rw [List.length_append, List.length_singleton]
      omega
    · rw [if_neg hc]
      simpa [enforceRateLimit] using hfl

/-- C3: with window `w > 0` and cap `maxC > 0`, (i) exactly `maxC`
admissions at instant `t0` all succeed; (ii) the next check at any instant
`u` still inside the window is denied; (iii) a check once the window has
elapsed (`t0 + w ≤ v`) is granted again; (iv) every admission check purges
the timestamps that have left the window, keeping only in-window ones; and
(v) from an empty window, the stored in-window count never exceeds the
cap. -/
theorem rateLimiter_window_spec (w maxC t0 u v : Nat) (hw : 0 < w)
    (hm : 0 < maxC) (hin : u - t0 < w) (hv : t0 + w ≤ v) :
    (runAcquires w maxC (List.replicate maxC t0) []).1 = List.replicate maxC true ∧
    (runAcquires w maxC (List.replicate maxC t0) []).2 = List.replicate maxC t0 ∧
    (tryAcquire w maxC u (List.replicate maxC t0)).1 = false ∧
    (tryAcquire w maxC v (List.replicate maxC t0)).1 = true ∧
    (∀ ts now t, t ∈ (tryAcquire w maxC now ts).2 → now - t < w) ∧
    (∀ nows, ((runAcquires w maxC nows []).2).length ≤ maxC) := by
  have hrep := runAcquires_replicate w maxC t0 hw maxC 0 (by omega)
  rw [List.replicate_zero, Nat.zero_add] at hrep
  refine ⟨?_, ?_, tryAcquire_denied_when_full w maxC u t0 hin,
    tryAcquire_granted_after_window w maxC v t0 hm hv,
    tryAcquire_purges w maxC hw,
    fun nows => runAcquires_length_le w maxC nows [] (by simp)⟩
  · rw [hrep]
  · rw [hrep]

/-- C3, witness: the source's window (60 s) and cap (3) — three admissions
at time 0 succeed, a fourth at time 1 is denied, and one at time 60000 is
granted again. -/
theorem rateLimiter_window_spec_witness :
    (runAcquires 60000 3 (List.replicate 3 0) []).1 = List.replicate 3 true ∧
    (runAcquires 60000 3 (List.replicate 3 0) []).2 = List.replicate 3 0 ∧
    (tryAcquire 60000 3 1 (List.replicate 3 0)).1 = false ∧
    (tryAcquire 60000 3 60000 (List.replicate 3 0)).1 = true ∧
    (∀ ts now t, t ∈ (tryAcquire 60000 3 now ts).2 → now - t < 60000) ∧
    (∀ nows, ((runAcquires 60000 3 nows []).2).length ≤ 3) :=
  rateLimiter_window_spec 60000 3 0 1 60000 (by decide) (by decide)
    (by decide) (by decide)

/-! ### C7 — dedup/exclusion/order of search-URL extraction -/

/-- When the first attempt already succeeds with body `d`, the retry loop
returns `d`. -/
theorem retryPolicy_first_ok (o : Nat → AttemptOutcome) (maxR base : Nat)
    (d : SerpData) (h : o 0 = .ok d) :
    (retryPolicy o maxR base).result = some d := by
  simp [retryPolicy, retryRun, h]

/-- C7: for an upstream response whose organic results are `[A, B, A, C]`
with `B` on the excluded `google.com` domain and `A`, `C` ordinary distinct
links, resolution of a non-direct query returns exactly `[A, C]`: `B` is
absent, the duplicate of `A` collapses, original order is preserved — and,
in general, at most `limit` URLs are ever returned. -/
theorem serp_dedup_exclusion (A B C q : String) (limit : Nat)
    (o : Nat → AttemptOutcome)
    (hq : isDirectUrl q = false)
    (ho : o 0 = .ok ⟨none, some [⟨some A⟩, ⟨some B⟩, ⟨some A⟩, ⟨some C⟩], none, none⟩)
    (hA0 : A ≠ "") (hC0 : C ≠ "") (hAC : A ≠ C)
    (hA : firstPassOk A = true) (hC : firstPassOk C = true)
    (hB : jsIncludes B "google.com" = true)
    (hlim : 2 ≤ limit) :
    getTopSearchUrls q limit o = [A, C] ∧
    ∀ (lim : Nat) (d : SerpData), (serpExtract lim d).length ≤ lim := by
  have hAA : (A == A) = true := beq_self_eq_true A
  have hCC : (C == C) = true := beq_self_eq_true C
  have hCA : (C == A) = false := beq_eq_false_iff_ne.mpr (Ne.symm hAC)
  have hfpB : firstPassOk B = false := by simp [firstPassOk, hB]
  have hfp : firstPass [] [⟨some A⟩, ⟨some B⟩, ⟨some A⟩, ⟨some C⟩] = [A, C] := by
    simp [firstPass, listHas, hA0, hC0, hA, hC, hfpB, hAA, hCA]
  have hsp : secondPass [A, C] [⟨some A⟩, ⟨some B⟩, ⟨some A⟩, ⟨some C⟩] = [A, C] := by
    simp [secondPass, listHas, hB, hAA, hCA, hCC]
  refine ⟨?_, fun lim d => List.length_take_le lim (extractUrls lim d)⟩
  rw [getTopSearchUrls, if_neg (by simp [hq])]
  rw [retryPolicy_first_ok o serpMaxRetries serpRetryDelay _ ho]
  simp only [serpExtract, extractUrls, hfp, hsp, ite_self]
  rw [List.take_of_length_le (by simpa using hlim)]

/-- C7, witness: concrete links with `B` a Google redirect URL. -/
theorem serp_dedup_exclusion_witness :
    getTopSearchUrls "industry trends" 5
      (fun _ => .ok ⟨none, some [⟨some "https://a.example/"⟩,
        ⟨some "https://www.google.com/url?q=b"⟩, ⟨some "https://a.example/"⟩,
        ⟨some "https://c.example/"⟩], none, none⟩) =
      ["https://a.example/", "https://c.example/"] ∧
    ∀ (lim : Nat) (d : SerpData), (serpExtract lim d).length ≤ lim :=
  serp_dedup_exclusion "https://a.example/" "https://www.google.com/url?q=b"
    "https://c.example/" "industry trends" 5 _ (by decide) rfl (by decide)
    (by decide) (by decide) (by decide) (by decide) (by decide) (by decide)

/-! ### C8 — fallback for `site:`/domain-like queries when resolution
fails -/

/-- When no attempt ever succeeds, the retry loop produces no response. -/
theorem retryRun_result_none (o : Nat → AttemptOutcome) (maxR base : Nat)
    (ho : ∀ k d, o k ≠ .ok d) :
    ∀ fuel k, (retryRun o maxR base fuel k).result = none := by
  intro fuel
  induction fuel with
  | zero => intro k; rfl
  | succ f ih =>
    intro k
    rw [retryRun]
    cases hok : o k with
    | ok d => exact absurd hok (ho k d)
    | err ab =>
      cases ab with
      | true => rfl
      | false =>
        by_cases hk : k < maxR
        · simp only [if_pos hk]
          exact ih (k + 1)
        · simp only [if_neg hk]

/-- C8: when the search collaborator never yields a response (every
attempt fails, exhausting the retries), the resolver propagates no error:
a `site:`-prefixed query that actually went through the search path
resolves to the single URL built from the literal domain substring of the
query, and a domain-like query resolves to a single direct URL (it never
even reaches the failing search loop). -/
theorem serp_failure_fallback (q : String) (limit : Nat)
    (o : Nat → AttemptOutcome) (ho : ∀ k d, o k ≠ .ok d) :
    (jsStartsWith q "site:" = true → isDirectUrl q = false →
      getTopSearchUrls q limit o = ["https://" ++ siteDomain q]) ∧
    (looksLikeDomain q = true → ∃ u, getTopSearchUrls q limit o = [u]) := by
  have hnone : (retryPolicy o serpMaxRetries serpRetryDelay).result = none :=
    retryRun_result_none o serpMaxRetries serpRetryDelay ho (serpMaxRetries + 1) 0
  constructor
  · intro hsite hdir
    rw [getTopSearchUrls, if_neg (by simp [hdir]), hnone]
    simp [hsite]
  · intro hdom
    refine ⟨ensureHttps q, ?_⟩
    rw [getTopSearchUrls, if_pos (by simp [isDirectUrl, hdom])]

/-- C8, witness: the query `site:foo.io events` (not domain-like: `.io` is
not a recognized TLD) under an always-failing collaborator resolves to the
extracted domain `https://foo.io`. -/
theorem serp_failure_fallback_witness :
    (jsStartsWith "site:foo.io events" "site:" = true →
      isDirectUrl "site:foo.io events" = false →
      getTopSearchUrls "site:foo.io events" 5 (fun _ => .err false) =
        ["https://" ++ siteDomain "site:foo.io events"]) ∧
    (looksLikeDomain "site:foo.io events" = true →
      ∃ u, getTopSearchUrls "site:foo.io events" 5 (fun _ => .err false) = [u]) :=
  serp_failure_fallback "site:foo.io events" 5 (fun _ => .err false)
    (fun _ _ h => AttemptOutcome.noConfusion h)

/-! ### C9 — bounded retries, exponential backoff, timeouts never
retried -/

/-- The retry loop performs at most `fuel` attempts. -/
theorem retryRun_attempts_len (o : Nat → AttemptOutcome) (maxR base : Nat) :
    ∀ fuel k, (retryRun o maxR base fuel k).attempts.length ≤ fuel := by
  intro fuel
  induction fuel with
  | zero => intro k; simp [retryRun]
  | succ f ih =>
    intro k
    rw [retryRun]
    cases o k with
    | ok d => simp
    | err ab =>
      cases ab with
      | true => simp
      | false =>
        by_cases hk : k < maxR
        · simp only [if_pos hk, List.length_cons]
          exact Nat.succ_le_succ (ih (k + 1))
        · simp [if_neg hk]

/-- With fuel remaining, the loop performs the attempt it starts at. -/
theorem retryRun_head_mem (o : Nat → AttemptOutcome) (maxR base : Nat)
    (fuel k : Nat) (hf : 0 < fuel) :
    k ∈ (retryRun o maxR base fuel k).attempts := by
  cases fuel with
  | zero => omega
  | succ f =>
    rw [retryRun]
    cases o k with
    | ok d => simp
    | err ab =>
      cases ab with
      | true => simp
      | false =>
        by_cases hk : k < maxR
        · simp [if_pos hk]
        · simp [if_neg hk]

/-- Attempt indices performed from start `k` are at least `k`. -/
theorem retryRun_mem_ge (o : Nat → AttemptOutcome) (maxR base : Nat) :
    ∀ fuel k j, j ∈ (retryRun o maxR base fuel k).attempts → k ≤ j := by
  intro fuel
  induction fuel with
  | zero => intro k j h; simp [retryRun] at h
  | succ f ih =>
    intro k j h
    rw [retryRun] at h
    cases hok : o k with
    | ok d => rw [hok] at h; simp at h; omega
    | err ab =>
      cases ab with
      | true => rw [hok] at h; simp at h; omega
      | false =>
        rw [hok] at h
        by_cases hk : k < maxR
        · rw [if_pos hk] at h
          simp only [List.mem_cons] at h
          rcases h with h | h
          · omega
          · have := ih (k + 1) j h; omega
        · rw [if_neg hk] at h; simp at h; omega

/-- A retryable failure at a performed attempt `j < maxR`, with fuel
remaining, is followed by the backoff sleep `base * 2 ^ j` and by attempt
`j + 1`. -/
theorem retryRun_retryable_continues (o : Nat → AttemptOutcome) (maxR base : Nat) :
    ∀ fuel k j, j ∈ (retryRun o maxR base fuel k).attempts →
      o j = .err false → j < maxR → j + 1 < k + fuel →
      (j + 1) ∈ (retryRun o maxR base fuel k).attempts ∧
      base * 2 ^ j ∈ (retryRun o maxR base fuel k).sleeps := by
  intro fuel
  induction fuel with
  | zero => intro k j h; simp [retryRun] at h
  | succ f ih =>
    intro k j hmem hj hjm hjf
    rw [retryRun] at hmem ⊢
    cases hok : o k with
    | ok d =>
      rw [hok] at hmem
      simp at hmem
      subst hmem
      rw [hok] at hj
      exact absurd hj (by simp)
    | err ab =>
      cases ab with
      | true =>
        rw [hok] at hmem
        simp at hmem
        subst hmem
        rw [hok] at hj
        simp at hj
      | false =>
        rw [hok] at hmem
        by_cases hk : k < maxR
        · rw [if_pos hk] at hmem ⊢
          simp only [List.mem_cons] at hmem
          rcases hmem with hmem | hmem
          · subst hmem
            constructor
            · exact List.mem_cons_of_mem _ (retryRun_head_mem o maxR base f (j + 1) (by omega))
            · exact List.mem_cons_self _ _
          · have := ih (k + 1) j hmem hj hjm (by omega)
            exact ⟨List.mem_cons_of_mem _ this.1, List.mem_cons_of_mem _ this.2⟩
        · rw [if_neg hk] at hmem
          simp at hmem
          subst hmem
          omega

/-- A timeout (`AbortError`) at a performed attempt `j` is never
followed by attempt `j + 1`. -/
theorem retryRun_abort_stops (o : Nat → AttemptOutcome) (maxR base : Nat) :
    ∀ fuel k j, j ∈ (retryRun o maxR base fuel k).attempts →
      o j = .err true → (j + 1) ∉ (retryRun o maxR base fuel k).attempts := by
  intro fuel
  induction fuel with
  | zero => intro k j h; simp [retryRun] at h
  | succ f ih =>
    intro k j hmem hj
    rw [retryRun] at hmem ⊢
    cases hok : o k with
    | ok d =>
      rw [hok] at hmem
      simp at hmem
      subst hmem
      simp
    | err ab =>
      cases ab with
      | true =>
        rw [hok] at hmem
        simp at hmem
        subst hmem
        simp
      | false =>
        rw [hok] at hmem
        by_cases hk : k < maxR
        · rw [if_pos hk] at hmem ⊢
          simp only [List.mem_cons] at hmem
          rcases hmem with hmem | hmem
          · subst hmem
            rw [hok] at hj
            simp at hj
          · have hge := retryRun_mem_ge o maxR base f (k + 1) j hmem
            have hnot := ih (k + 1) j hmem hj
            simp only [List.mem_cons]
            rintro (h | h)
            · omega
            · exact hnot h
        · rw [if_neg hk] at hmem ⊢
          simp at hmem
          subst hmem
          intro hcon
          simp at hcon

/-- C9: under the retry policy of `getTopSearchUrls`, (i) at most
`maxR + 1` attempts (hence at most `maxR` retries) are ever performed;
(ii) a retryable failure at attempt `k` with retries remaining is followed
by the exponential-backoff sleep `base * 2 ^ k` and by attempt `k + 1`;
(iii) a timeout abort at attempt `k` is never retried. -/
theorem retryPolicy_spec (o : Nat → AttemptOutcome) (maxR base : Nat) :
    (retryPolicy o maxR base).attempts.length ≤ maxR + 1 ∧
    (∀ k, k ∈ (retryPolicy o maxR base).attempts → o k = .err false →
      k < maxR → (k + 1) ∈ (retryPolicy o maxR base).attempts ∧
        base * 2 ^ k ∈ (retryPolicy o maxR base).sleeps) ∧
    (∀ k, k ∈ (retryPolicy o maxR base).attempts → o k = .err true →
      (k + 1) ∉ (retryPolicy o maxR base).attempts) := by
  refine ⟨retryRun_attempts_len o maxR base (maxR + 1) 0, ?_, ?_⟩
  · intro k hmem hk hkm
    exact retryRun_retryable_continues o maxR base (maxR + 1) 0 k hmem hk hkm
      (by omega)
  · intro k hmem hk
    exact retryRun_abort_stops o maxR base (maxR + 1) 0 k hmem hk

/-- C9, witness: the source's configuration (`MAX_RETRIES = 2`,
`RETRY_DELAY = 2000`) with a first retryable failure followed by a
timeout. -/
theorem retryPolicy_spec_witness :
    (retryPolicy (fun k => if k = 0 then .err false else .err true)
      serpMaxRetries serpRetryDelay).attempts.length ≤ serpMaxRetries + 1 ∧
    (∀ k, k ∈ (retryPolicy (fun k => if k = 0 then .err false else .err true)
        serpMaxRetries serpRetryDelay).attempts →
      (if k = 0 then AttemptOutcome.err false else AttemptOutcome.err true) = .err false →
      k < serpMaxRetries →
      (k + 1) ∈ (retryPolicy (fun k => if k = 0 then .err false else .err true)
        serpMaxRetries serpRetryDelay).attempts ∧
      serpRetryDelay * 2 ^ k ∈ (retryPolicy (fun k => if k = 0 then .err false else .err true)
        serpMaxRetries serpRetryDelay).sleeps) ∧
    (∀ k, k ∈ (retryPolicy (fun k => if k = 0 then .err false else .err true)
        serpMaxRetries serpRetryDelay).attempts →
      (if k = 0 then AttemptOutcome.err false else AttemptOutcome.err true) = .err true →
      (k + 1) ∉ (retryPolicy (fun k => if k = 0 then .err false else .err true)
        serpMaxRetries serpRetryDelay).attempts) :=
  retryPolicy_spec (fun k => if k = 0 then .err false else .err true)
    serpMaxRetries serpRetryDelay

/-! ### C1 — two rounds then `Exhausted` under `maxIterations = 2` -/

/-- The final round (`iterationCount = maxIterations - 1 = 1`): one more
scrape/analyze, then the cap test fires and the loop stops as exhausted. -/
theorem researchGo_last_round (scrape : Nat → List String → List ScrapingResult)
    (analyze : Nat → List ScrapingResult → AnalysisR)
    (hs : ∀ i qs, scrape i qs ≠ [])
    (ha : ∀ i rs, (analyze i rs).isDone = false) :
    ∀ (qs : List String) (its : List IterRec),
      researchGo 2 scrape analyze 2 1 qs its =
        ⟨its ++ [⟨2, qs, scrape 1 qs, (analyze 1 (scrape 1 qs)).analysis,
          (analyze 1 (scrape 1 qs)).nextQueries⟩], 1, .exhausted⟩ := by
  intro qs its
  have hlen : ¬((scrape 1 qs).length = 0) := by
    intro h
    exact hs 1 qs (List.length_eq_zero.mp h)
  rw [show (researchGo 2 scrape analyze 2 1 qs its) =
    (researchGo 2 scrape analyze (1 + 1) 1 qs its) from rfl]
  rw [researchGo]
  simp [hlen, ha 1 (scrape 1 qs)]

/-- C1: with `maxIterations = 2`, a scraper that always returns results
and a refinement collaborator that never declares the research done and
always proposes further (non-empty) queries, the loop performs exactly two
rounds, records exactly two iterations, and terminates in the
iteration-capped state; the page-level `continueResearch` guard likewise
refuses to start a round once the counter has reached
`MAX_RESEARCH_ITERATIONS = 2`, so a third round never starts. -/
theorem research_iteration_cap (scrape : Nat → List String → List ScrapingResult)
    (analyze : Nat → List ScrapingResult → AnalysisR) (q0 : List String)
    (hs : ∀ i qs, scrape i qs ≠ [])
    (ha : ∀ i rs, (analyze i rs).isDone = false)
    (_hn : ∀ i rs, (analyze i rs).nextQueries ≠ []) :
    (conductIterativeResearch 2 scrape analyze q0).rounds = 2 ∧
    (conductIterativeResearch 2 scrape analyze q0).termState = SessionEnd.exhausted ∧
    (conductIterativeResearch 2 scrape analyze q0).history.length = 2 ∧
    continueResearch MAX_RESEARCH_ITERATIONS = ContinueAction.limitReached := by
  have hlen : ∀ i qs, ¬((scrape i qs).length = 0) := by
    intro i qs h
    exact hs i qs (List.length_eq_zero.mp h)
  have key : conductIterativeResearch 2 scrape analyze q0 =
      ⟨([] ++ [⟨1, q0, scrape 0 q0, (analyze 0 (scrape 0 q0)).analysis,
          (analyze 0 (scrape 0 q0)).nextQueries⟩]) ++
        [⟨2, (analyze 0 (scrape 0 q0)).nextQueries,
          scrape 1 ((analyze 0 (scrape 0 q0)).nextQueries),
          (analyze 1 (scrape 1 ((analyze 0 (scrape 0 q0)).nextQueries))).analysis,
          (analyze 1 (scrape 1 ((analyze 0 (scrape 0 q0)).nextQueries))).nextQueries⟩],
        2, .exhausted⟩ := by
    rw [conductIterativeResearch, researchGo]
    simp [hlen 0 q0, ha 0 (scrape 0 q0),
      researchGo_last_round scrape analyze hs ha]
  rw [key]
  exact ⟨rfl, rfl, by simp, by decide⟩

/-- C1, witness: a scraper that always yields one result and a
collaborator that always asks to continue with one improved target. -/
theorem research_iteration_cap_witness :
    (conductIterativeResearch 2 (fun _ _ => [⟨"u", "c", [], "q"⟩])
      (fun _ _ => ⟨"analysis", 5, ["improved"], false⟩) ["q1"]).rounds = 2 ∧
    (conductIterativeResearch 2 (fun _ _ => [⟨"u", "c", [], "q"⟩])
      (fun _ _ => ⟨"analysis", 5, ["improved"], false⟩) ["q1"]).termState =
      SessionEnd.exhausted ∧
    (conductIterativeResearch 2 (fun _ _ => [⟨"u", "c", [], "q"⟩])
      (fun _ _ => ⟨"analysis", 5, ["improved"], false⟩) ["q1"]).history.length = 2 ∧
    continueResearch MAX_RESEARCH_ITERATIONS = ContinueAction.limitReached :=
  research_iteration_cap (fun _ _ => [⟨"u", "c", [], "q"⟩])
    (fun _ _ => ⟨"analysis", 5, ["improved"], false⟩) ["q1"]
    (fun _ _ => by simp) (fun _ _ => rfl) (fun _ _ => by simp)

/-! ### C4 — what the fetch cache stores -/

/-- Appending a fresh key to an association list makes it found. -/
theorem lookup_append_fresh (l : List (String × CrawlResponse)) (k : String)
    (v : CrawlResponse) (h : l.lookup k = none) :
    (l ++ [(k, v)]).lookup k = some v := by
  induction l with
  | nil => simp [List.lookup]
  | cons p l ih =>
    obtain ⟨a, b⟩ := p
    by_cases hak : (k == a) = true
    · rw [List.lookup, hak] at h
      simp at h
    · rw [Bool.not_eq_true] at hak
      rw [List.lookup, hak] at h
      simp only at h
      rw [List.cons_append, List.lookup, hak]
      simpa using ih h

/-- C4, counterexample: the first fetch of a URL receives an error-shaped
response (`{success: false}`) from the collaborator — a failed fetch — and
this failure IS cached: the second fetch of the same URL returns the
cached failure and initiates no network call, contradicting the claim that
no failure record is kept and that the next fetch is fresh. -/
theorem crawl_cache_failure_counterexample :
    (crawlWebsite id (some "k") (.ok (.fail "boom")) 0 ⟨[], []⟩
      "https://x.example/").1 = .failure "boom" ∧
    (crawlWebsite id (some "k") (.ok (.fail "boom")) 0 ⟨[], []⟩
      "https://x.example/").2.2 = true ∧
    (crawlWebsite id (some "k") (.ok (.ok "fresh" [])) 1
      (crawlWebsite id (some "k") (.ok (.fail "boom")) 0 ⟨[], []⟩
        "https://x.example/").2.1
      "https://x.example/").2.2 = false ∧
    (crawlWebsite id (some "k") (.ok (.ok "fresh" [])) 1
      (crawlWebsite id (some "k") (.ok (.fail "boom")) 0 ⟨[], []⟩
        "https://x.example/").2.1
      "https://x.example/").1 = .failure "boom" := by
  refine ⟨by decide, by decide, by decide, by decide⟩

/-- C4, amended: the cache stores every *response* the collaborator
returns — successes and error responses alike — keyed by the normalized
URL; a second fetch of a cached URL returns the processed cached response
with no network call (so two sequential fetches issue at most one call);
only a fetch that *threw* leaves no cache record (and is therefore retried
freshly), while a fetch that failed with an error response is not. -/
theorem crawl_cache_spec (fmt : String → String) (key : String)
    (collab2 : Except String CrawlResponse) (now now2 : Nat)
    (st : FCState) (url : String) (resp : CrawlResponse) (e : String)
    (hmiss : st.requestCache.lookup (fmt url) = none)
    (hfree : (st.recentRequests.filter
      (fun t => decide (now - t < RATE_LIMIT_WINDOW))).length <
      MAX_CONCURRENT_REQUESTS) :
    ((crawlWebsite fmt (some key) (.ok resp) now st url).2.1.requestCache.lookup
        (fmt url) = some resp ∧
      (crawlWebsite fmt (some key) (.ok resp) now st url).2.2 = true ∧
      (crawlWebsite fmt (some key) (.ok resp) now st url).1 = processResponse resp) ∧
    (∀ st2 : FCState, st2.requestCache.lookup (fmt url) = some resp →
      crawlWebsite fmt (some key) collab2 now2 st2 url =
        (processResponse resp, st2, false)) ∧
    ((crawlWebsite fmt (some key) (.error e) now st url).2.1.requestCache =
        st.requestCache ∧
      (crawlWebsite fmt (some key) (.error e) now st url).1 = .failure e ∧
      (crawlWebsite fmt (some key) (.error e) now st url).2.2 = true) := by
  have hckey : (crawlWebsite fmt (some key) (.ok resp) now st url).2.1.requestCache =
      st.requestCache ++ [(fmt url, resp)] := by
    simp [crawlWebsite, hmiss, enforceRateLimit, hfree, mapSet]
  refine ⟨⟨?_, ?_, ?_⟩, ?_, ?_, ?_, ?_⟩
  · rw [hckey]
    exact lookup_append_fresh st.requestCache (fmt url) resp hmiss
  · simp [crawlWebsite, hmiss, enforceRateLimit, hfree]
  · simp [crawlWebsite, hmiss, enforceRateLimit, hfree]
  · intro st2 hhit
    simp [crawlWebsite, hhit]
  · simp [crawlWebsite, hmiss, enforceRateLimit, hfree]
  · simp [crawlWebsite, hmiss, enforceRateLimit, hfree]
  · simp [crawlWebsite, hmiss, enforceRateLimit, hfree]

/-- C4, witness for the amended theorem: a fresh cache, an admitting rate
window, and concrete collaborator responses. -/
theorem crawl_cache_spec_witness :
    ((crawlWebsite id (some "k") (.ok (.ok "body" [])) 0 ⟨[], []⟩
        "https://y.example/").2.1.requestCache.lookup "https://y.example/" =
        some (.ok "body" []) ∧
      (crawlWebsite id (some "k") (.ok (.ok "body" [])) 0 ⟨[], []⟩
        "https://y.example/").2.2 = true ∧
      (crawlWebsite id (some "k") (.ok (.ok "body" [])) 0 ⟨[], []⟩
        "https://y.example/").1 = processResponse (.ok "body" [])) ∧
    (∀ st2 : FCState, st2.requestCache.lookup "https://y.example/" =
        some (.ok "body" []) →
      crawlWebsite id (some "k") (.ok (.fail "z")) 1 st2 "https://y.example/" =
        (processResponse (.ok "body" []), st2, false)) ∧
    ((crawlWebsite id (some "k") (.error "thrown") 0 ⟨[], []⟩
        "https://y.example/").2.1.requestCache = FCState.requestCache ⟨[], []⟩ ∧
      (crawlWebsite id (some "k") (.error "thrown") 0 ⟨[], []⟩
        "https://y.example/").1 = .failure "thrown" ∧
      (crawlWebsite id (some "k") (.error "thrown") 0 ⟨[], []⟩
        "https://y.example/").2.2 = true) :=
  crawl_cache_spec id "k" (.ok (.fail "z")) 0 1 ⟨[], []⟩ "https://y.example/"
    (.ok "body" []) "thrown" rfl (by decide)

/-! ### C2, C5, C10 — cancellation, global result cap, and the outermost
catch of `scrapeSearchTargets` -/

/-- URL preparation leaves the result accumulator untouched. -/
theorem resolveUrlsFor_results (env : ScrapeEnv) (serpKey ctx : Option String)
    (t : String) (st : SState) :
    (resolveUrlsFor env serpKey ctx t st).2.results = st.results := by
  rw [resolveUrlsFor.eq_def]
  repeat' first | split | dsimp only

/-- Any event URL preparation adds was initiated at the clock and
accumulator size of entry. -/
theorem resolveUrlsFor_events (env : ScrapeEnv) (serpKey ctx : Option String)
    (t : String) (st : SState) :
    ∀ e, e ∈ (resolveUrlsFor env serpKey ctx t st).2.events →
      e ∈ st.events ∨ (e.clock = st.clock ∧ e.resultsLen = st.results.length) := by
  intro e he
  rw [resolveUrlsFor.eq_def] at he
  repeat' first | split at he | dsimp only at he
  all_goals
    first
    | exact Or.inl he
    | (simp only [List.mem_append, List.mem_singleton] at he
       rcases he with he | he
       · exact Or.inl he
       · rw [he]
         exact Or.inr ⟨rfl, rfl⟩)

/-- Any event the batch loop adds was initiated with the flag unset and
the accumulator strictly below the cap. -/
theorem batchLoop_events (env : ScrapeEnv) (target : String) :
    ∀ (cs : List (List String)) (st : SState) (e : REvent),
      e ∈ (batchLoop env target cs st).events →
      e ∈ st.events ∨
        (env.canceled e.clock = false ∧ e.resultsLen < MAX_RESULTS_TOTAL) := by
  intro cs
  induction cs with
  | nil => intro st e he; exact Or.inl he
  | cons c rest ih =>
    intro st e he
    simp only [batchLoop] at he
    split at he
    · exact Or.inl he
    · rename_i hguard
      rw [Bool.or_eq_true, not_or] at hguard
      obtain ⟨hc, hl⟩ := hguard
      rw [Bool.not_eq_true] at hc
      rw [decide_eq_true_eq, not_le] at hl
      have hstep : ∀ e' : REvent, e' ∈ st.events ++
          c.map (fun u => REvent.mk st.clock st.results.length (.fetchCall u)) →
          e' ∈ st.events ∨
            (env.canceled e'.clock = false ∧ e'.resultsLen < MAX_RESULTS_TOTAL) := by
        intro e' he'
        rcases List.mem_append.mp he' with he' | he'
        · exact Or.inl he'
        · rcases List.mem_map.mp he' with ⟨u, _, hu⟩
          rw [← hu]
          exact Or.inr ⟨hc, hl⟩
      split at he
      · rcases ih _ e he with h | h
        · exact hstep e h
        · exact Or.inr h
      · split at he
        · exact hstep e he
        · split at he
          · rcases ih _ e he with h | h
            · exact hstep e h
            · exact Or.inr h
          · exact hstep e he

/-- The batch loop only appends to the result accumulator. -/
theorem batchLoop_results_mono (env : ScrapeEnv) (target : String) :
    ∀ (cs : List (List String)) (st : SState),
      ∃ tail, (batchLoop env target cs st).results = st.results ++ tail := by
  intro cs
  induction cs with
  | nil => intro st; exact ⟨[], by simp [batchLoop]⟩
  | cons c rest ih =>
    intro st
    simp only [batchLoop]
    split
    · exact ⟨[], by simp⟩
    · split
      · obtain ⟨tail, htail⟩ := ih ⟨st.clock + 1 + 1,
          st.results ++ c.filterMap (fetchOne env st.clock target),
          st.events ++ c.map (fun u => REvent.mk st.clock st.results.length (.fetchCall u))⟩
        exact ⟨c.filterMap (fetchOne env st.clock target) ++ tail,
          by rw [htail, List.append_assoc]⟩
      · split
        · exact ⟨c.filterMap (fetchOne env st.clock target), rfl⟩
        · split
          · obtain ⟨tail, htail⟩ := ih ⟨st.clock + 1 + 1,
              st.results ++ c.filterMap (fetchOne env st.clock target),
              st.events ++ c.map (fun u => REvent.mk st.clock st.results.length (.fetchCall u))⟩
            exact ⟨c.filterMap (fetchOne env st.clock target) ++ tail,
              by rw [htail, List.append_assoc]⟩
          · exact ⟨c.filterMap (fetchOne env st.clock target), rfl⟩

/-- Any event one target's processing adds was initiated with the flag
unset and the accumulator below the cap, provided both held at the
target's boundary check. -/
theorem targetStep_events (env : ScrapeEnv) (serpKey ctx : Option String)
    (orig : List String) (t : String) (st : SState)
    (hc : env.canceled st.clock = false)
    (hl : st.results.length < MAX_RESULTS_TOTAL) :
    ∀ e, e ∈ (targetStep env serpKey ctx orig t st).events →
      e ∈ st.events ∨
        (env.canceled e.clock = false ∧ e.resultsLen < MAX_RESULTS_TOTAL) := by
  intro e he
  have habs : ∀ e', e' ∈ (resolveUrlsFor env serpKey ctx t
      (pushTargetStart t st)).2.events →
      e' ∈ st.events ∨
        (env.canceled e'.clock = false ∧ e'.resultsLen < MAX_RESULTS_TOTAL) := by
    intro e' he'
    rcases resolveUrlsFor_events env serpKey ctx t _ e' he' with h | h
    · rcases List.mem_append.mp h with h | h
      · exact Or.inl h
      · rw [List.mem_singleton.mp h]
        exact Or.inr ⟨hc, hl⟩
    · refine Or.inr ⟨?_, ?_⟩
      · rw [h.1]; exact hc
      · rw [h.2]; exact hl
  rw [targetStep] at he
  split at he
  · exact habs e he
  · split at he
    · rcases batchLoop_events env t _ _ e he with h | h
      · exact habs e h
      · exact Or.inr h
    · rcases batchLoop_events env t _ _ e he with h | h
      · exact habs e h
      · exact Or.inr h

/-- One target's processing only appends to the result accumulator. -/
theorem targetStep_results_mono (env : ScrapeEnv) (serpKey ctx : Option String)
    (orig : List String) (t : String) (st : SState) :
    ∃ tail, (targetStep env serpKey ctx orig t st).results = st.results ++ tail := by
  have hres : (resolveUrlsFor env serpKey ctx t (pushTargetStart t st)).2.results =
      st.results :=
    resolveUrlsFor_results env serpKey ctx t (pushTargetStart t st)
  rw [targetStep]
  split
  · exact ⟨[], by rw [hres, List.append_nil]⟩
  · obtain ⟨tail, htail⟩ := batchLoop_results_mono env t
      (chunk3 (preparedUrls env serpKey ctx t st))
      (resolveUrlsFor env serpKey ctx t (pushTargetStart t st)).2
    rw [hres] at htail
    split
    · exact ⟨tail, htail⟩
    · exact ⟨tail, htail⟩

/-- Any event the target loop adds was initiated with the flag unset and
the accumulator below the cap. -/
theorem targetLoop_events (env : ScrapeEnv) (serpKey ctx : Option String)
    (orig : List String) :
    ∀ (ts : List String) (st : SState) (e : REvent),
      e ∈ (targetLoop env serpKey ctx orig ts st).events →
      e ∈ st.events ∨
        (env.canceled e.clock = false ∧ e.resultsLen < MAX_RESULTS_TOTAL) := by
  intro ts
  induction ts with
  | nil => intro st e he; exact Or.inl he
  | cons t ts ih =>
    intro st e he
    simp only [targetLoop] at he
    split at he
    · exact Or.inl he
    · rename_i hguard
      rw [Bool.or_eq_true, not_or] at hguard
      obtain ⟨hc, hl⟩ := hguard
      rw [Bool.not_eq_true] at hc
      rw [decide_eq_true_eq, not_le] at hl
      rcases ih _ e he with h | h
      · exact targetStep_events env serpKey ctx orig t st hc hl e h
      · exact Or.inr h

/-- The target loop only appends to the result accumulator: everything
present in the accumulator when the loop (re-)enters — in particular every
fetch result appended before a cancellation took effect — is still present
in the final result list. -/
theorem targetLoop_results_mono (env : ScrapeEnv) (serpKey ctx : Option String)
    (orig : List String) :
    ∀ (ts : List String) (st : SState),
      ∃ tail, (targetLoop env serpKey ctx orig ts st).results = st.results ++ tail := by
  intro ts
  induction ts with
  | nil => intro st; exact ⟨[], by simp [targetLoop]⟩
  | cons t ts ih =>
    intro st
    simp only [targetLoop]
    split
    · exact ⟨[], by simp⟩
    · obtain ⟨t1, ht1⟩ := targetStep_results_mono env serpKey ctx orig t st
      obtain ⟨t2, ht2⟩ := ih (targetStep env serpKey ctx orig t st)
      exact ⟨t1 ++ t2, by rw [ht2, ht1, List.append_assoc]⟩

/-- C2: in every completed run of `scrapeSearchTargets`, with the
cancellation flag monotone in time (once set, it stays set), (i) every
unit of work the run initiated — each per-target start, each per-target
search-resolution call, each per-batch fetch call — was initiated at a
clock at which the flag was *not* set, so no new network call starts after
cancellation, the loop exiting at the next target or batch boundary; and
(ii) the accumulator is append-only across targets, so every fetch result
appended before cancellation remains in the returned result list. -/
theorem scrape_cancellation (env : ScrapeEnv) (targets : List String)
    (ctx : Option String) (st : SState)
    (_hmono : ∀ i j, i ≤ j → env.canceled i = true → env.canceled j = true)
    (hok : scrapeBody env targets ctx = .ok st) :
    (∀ e ∈ st.events, env.canceled e.clock = false) ∧
    (∀ (serpKey ctx2 : Option String) (orig ts : List String) (st0 : SState),
      ∃ tail, (targetLoop env serpKey ctx2 orig ts st0).results =
        st0.results ++ tail) := by
  constructor
  · intro e he
    rw [scrapeBody] at hok
    cases hsk : env.serpKeyE with
    | error e2 => rw [hsk] at hok; exact absurd hok (by simp)
    | ok serpKey =>
      rw [hsk] at hok
      cases hfk : env.fcKeyE with
      | error e2 => rw [hfk] at hok; exact absurd hok (by simp)
      | ok fk =>
        rw [hfk] at hok
        cases fk with
        | none =>
          simp only [Except.ok.injEq] at hok
          rw [← hok] at he
          simp at he
        | some k =>
          simp only [Except.ok.injEq] at hok
          rw [← hok] at he
          rcases targetLoop_events env serpKey ctx targets
            (prioritizeTargets targets) _ e he with h | h
          · simp at h
          · exact h.1
  · intro serpKey ctx2 orig ts st0
    exact targetLoop_results_mono env serpKey ctx2 orig ts st0

/-- C5: in every completed run, every unit of work — target start,
resolution call, batch fetch — was initiated while the accumulator held
strictly fewer than `MAX_RESULTS_TOTAL` results: once the cap is reached,
no further batch and no further target of the round is processed. -/
theorem scrape_result_cap (env : ScrapeEnv) (targets : List String)
    (ctx : Option String) (st : SState)
    (hok : scrapeBody env targets ctx = .ok st) :
    ∀ e ∈ st.events, e.resultsLen < MAX_RESULTS_TOTAL := by
  intro e he
  rw [scrapeBody] at hok
  cases hsk : env.serpKeyE with
  | error e2 => rw [hsk] at hok; exact absurd hok (by simp)
  | ok serpKey =>
    rw [hsk] at hok
    cases hfk : env.fcKeyE with
    | error e2 => rw [hfk] at hok; exact absurd hok (by simp)
    | ok fk =>
      rw [hfk] at hok
      cases fk with
      | none =>
        simp only [Except.ok.injEq] at hok
        rw [← hok] at he
        simp at he
      | some k =>
        simp only [Except.ok.injEq] at hok
        rw [← hok] at he
        rcases targetLoop_events env serpKey ctx targets
          (prioritizeTargets targets) _ e he with h | h
        · simp at h
        · exact h.2

/-- C10: the public entry point never propagates an exception: when the
body completes it returns the loop's accumulated results, and when the
body throws (which can only happen in the unguarded pre-loop key lookups,
before anything is accumulated) the catch handler returns the accumulator
as it stood — the empty list — rather than rethrowing.  Failures inside
the loop are already absorbed by the inner handlers, which is what makes
`scrapeBody` total on the loop itself. -/
theorem scrape_entry_total (env : ScrapeEnv) (targets : List String)
    (ctx : Option String) :
    (∀ st, scrapeBody env targets ctx = .ok st →
      scrapeSearchTargets env targets ctx = st.results) ∧
    (∀ e acc, scrapeBody env targets ctx = .error (e, acc) →
      scrapeSearchTargets env targets ctx = acc ∧ acc = []) := by
  constructor
  · intro st h
    simp [scrapeSearchTargets, h]
  · intro e acc h
    refine ⟨by simp [scrapeSearchTargets, h], ?_⟩
    rw [scrapeBody] at h
    cases hsk : env.serpKeyE with
    | error e2 =>
      rw [hsk] at h
      simp only [Except.error.injEq, Prod.mk.injEq] at h
      exact h.2.symm
    | ok serpKey =>
      rw [hsk] at h
      cases hfk : env.fcKeyE with
      | error e2 =>
        rw [hfk] at h
        simp only [Except.error.injEq, Prod.mk.injEq] at h
        exact h.2.symm
      | ok fk =>
        rw [hfk] at h
        cases fk with
        | none => exact absurd h (by simp)
        | some k => exact absurd h (by simp)

/-- A concrete environment for the witnesses: never canceled, both keys
present, one resolved URL per query, every fetch succeeding. -/
def envW : ScrapeEnv :=
  ⟨fun _ => false, .ok (some "sk"), .ok (some "fk"),
    fun _ _ => .ok ["https://a.example/"],
    fun _ _ => .ok ⟨true, some ⟨"body", none⟩⟩,
    fun _ => true⟩

/-- C2, witness: a completed run in the concrete environment. -/
theorem scrape_cancellation_witness :
    (∀ e ∈ (targetLoop envW (some "sk") none ["industry trends"]
        (prioritizeTargets ["industry trends"]) ⟨0, [], []⟩).events,
      envW.canceled e.clock = false) ∧
    (∀ (serpKey ctx2 : Option String) (orig ts : List String) (st0 : SState),
      ∃ tail, (targetLoop envW serpKey ctx2 orig ts st0).results =
        st0.results ++ tail) :=
  scrape_cancellation envW ["industry trends"] none
    (targetLoop envW (some "sk") none ["industry trends"]
      (prioritizeTargets ["industry trends"]) ⟨0, [], []⟩)
    (fun _ _ _ h => h) rfl

/-- C5, witness: the same completed run, against the source's cap of 15. -/
theorem scrape_result_cap_witness :
    (∀ e ∈ (targetLoop envW (some "sk") none ["industry trends"]
        (prioritizeTargets ["industry trends"]) ⟨0, [], []⟩).events,
      e.resultsLen < MAX_RESULTS_TOTAL) ∧ MAX_RESULTS_TOTAL = 15 :=
  ⟨scrape_result_cap envW ["industry trends"] none
    (targetLoop envW (some "sk") none ["industry trends"]
      (prioritizeTargets ["industry trends"]) ⟨0, [], []⟩) rfl, rfl⟩

/-- C10, witness: the concrete environment instantiation. -/
theorem scrape_entry_total_witness :
    (∀ st, scrapeBody envW ["industry trends"] none = .ok st →
      scrapeSearchTargets envW ["industry trends"] none = st.results) ∧
    (∀ e acc, scrapeBody envW ["industry trends"] none = .error (e, acc) →
      scrapeSearchTargets envW ["industry trends"] none = acc ∧ acc = []) :=
  scrape_entry_total envW ["industry trends"] none

end InsightAtlas
